import Mathlib

/-!
Shallow embedding of the pterm interactive selection engines
(`interactive_generic_select_printer.go` and
`interactive_generic_multiselect_printer.go`).

Options are modelled by their display text (`option.String()`), since the
engines compare and store options through `optionsStr`.  The fuzzy ranking
library (`github.com/lithammer/fuzzysearch/fuzzy`) is an external
collaborator and is modelled as a parameter (`FuzzyLib`): a match predicate
(`fuzzy.MatchFold`, used through `RankFindFold`, which keeps matching
candidates in source order) together with an opaque rank sort
(`sort.Sort(rankedResults)`).  Terminal rendering is out of scope; the
render functions below keep only the state mutations that
`renderSelectMenu` performs (recomputing `fuzzySearchMatches` and, for the
single-select engine, `result`).  The `displayedOptions` slice is write-only
in the source (every read goes through `fuzzySearchMatches` and the window
bounds), so it is not carried in the state.
-/

namespace Pterm

/-- External collaborator: the fuzzy matching library.  `matchq q s` is
`fuzzy.MatchFold(string(q), s)`; `sortR q l` is the reordering performed by
`sort.Sort` on the ranked results for query `q` (internals are a black box
to the spec). -/
structure FuzzyLib where
  matchq : List Char → String → Bool
  sortR : List Char → List String → List String

/-- Assumption about the library that every claim relying on the identity
pass of the filter stage uses: the empty query accepts every candidate
(true of `fuzzy.MatchFold`, for which the needle is a subsequence of the
haystack). -/
def EmptyMatchesAll (fz : FuzzyLib) : Prop := ∀ s, fz.matchq [] s = true

/-- Case folding applied to a single character (model of the unicode fold
used by `fuzzy.MatchFold`). -/
def foldChar (c : Char) : Char := c.toLower

/-- Case-folded subsequence matching, the observable behavior of
`fuzzy.MatchFold`. -/
def isSubseqFold : List Char → List Char → Bool
  | [], _ => true
  | _ :: _, [] => false
  | c :: cs, d :: ds =>
    if foldChar c = foldChar d then isSubseqFold cs ds else isSubseqFold (c :: cs) ds

/-- Concrete instance of the fuzzy library used to evaluate the model on
closed inputs: case-folded subsequence matching, with the rank sort taken
as the identity permutation (rank internals are a black box; every closed
evaluation below feeds the sort at most one element, where the identity is
the only permutation). -/
def fzModel : FuzzyLib :=
  { matchq := fun q s => isSubseqFold q s.toList
    sortR := fun _ l => l }

/-- Data effect of the match recomputation inside `renderSelectMenu` (both
engines, identical code): `rankedResults := fuzzy.RankFindFold(query,
optionsStr)` keeps the matching candidates in source order; the ranked
results are sorted only when the match count differs from the full option
count; the targets are then copied into `fuzzySearchMatches`. -/
def computeMatches (fz : FuzzyLib) (q : List Char) (opts : List String) : List String :=
  let ranked := opts.filter (fz.matchq q)
  if ranked.length ≠ opts.length then fz.sortR q ranked else ranked

/-- Modelled from the spec: the library-wide defaults
`DefaultInteractiveSelect.MaxHeight` and
`DefaultInteractiveMultiselect.MaxHeight` are defined outside the two
source files; the spec fixes the default maximum visible rows at 5. -/
def libraryDefaultMaxHeight : Int := 5

/-- Key codes distinguished by the two engines (`atomicgo.dev/keyboard/keys`). -/
inductive KeyCode
  | runeK | space | backspace | up | down | ctrlP | ctrlN
  | left | right | ctrlC | enter | tab
deriving DecidableEq, Repr

/-- One key event: the key code plus, for printable keys, the runes of
`keyInfo.String()`. -/
structure Key where
  code : KeyCode
  runes : List Char
deriving DecidableEq, Repr

/-- Focus index and viewport window (`selectedOption`,
`displayedOptionsStart`, `displayedOptionsEnd`).  The window bounds are Go
`int`s and can go negative mid-update, hence `Int`. -/
structure Win where
  focus : Nat
  start : Int
  stop : Int
deriving DecidableEq, Repr

/-- Up / CtrlP navigation (identical in both engines).  `mh` is the local
`maxHeight`, already clamped to the current match count; `len` is
`len(fuzzySearchMatches)` (nonzero: the empty case returns before this code
runs). -/
def navUp (mh : Int) (len : Nat) (w : Win) : Win :=
  if w.focus > 0 then
    let f := w.focus - 1
    if (f : Int) < w.start then
      let a := w.start - 1
      let b := w.stop - 1
      if a < 0 then { focus := f, start := 0, stop := mh }
      else { focus := f, start := a, stop := b }
    else { w with focus := f }
  else
    { focus := len - 1, start := (len : Int) - mh, stop := (len : Int) }

/-- Down / CtrlN navigation (identical in both engines). -/
def navDown (mh : Int) (len : Nat) (w : Win) : Win :=
  if w.focus < len - 1 then
    let f := w.focus + 1
    if (f : Int) ≥ w.stop then { w with focus := f, start := w.start + 1, stop := w.stop + 1 }
    else { w with focus := f }
  else
    { focus := 0, start := 0, stop := mh }

/-- Errors returned by `Show` before the event loop: `no options provided`
and the space-key configuration conflict (multiselect only). -/
inductive ShowErr
  | noOptions
  | spaceKeyConflict
deriving DecidableEq, Repr

/-! ### Single-select engine (`InteractiveGenericSelectPrinter`) -/

/-- Caller-facing configuration of the single-select engine (the fields of
`InteractiveGenericSelectPrinter` the state machine reads; style and render
callbacks are pure decoration). -/
structure SelCfg where
  optionsStr : List String
  maxHeight : Int
  filter : Bool
  defaultOptionStr : String
deriving DecidableEq, Repr

/-- Mutable state of one single-select `Show` invocation.  `maxH` is the
`p.MaxHeight` field after the zero-value fallback performed at the start of
`Show`. -/
structure SelState where
  query : List Char
  focus : Nat
  fmatches : List String
  winStart : Int
  winEnd : Int
  maxH : Int
  result : String
deriving DecidableEq, Repr

/-- Constructor defaults of `NewGenericInteractiveSelect`. -/
def newSelCfg : SelCfg :=
  { optionsStr := [], maxHeight := 5, filter := true, defaultOptionStr := "" }

/-- State effect of `renderSelectMenu` (single-select): recompute
`fuzzySearchMatches` from the current query and set `result` to the focused
match when the match set is non-empty. -/
def selRender (fz : FuzzyLib) (cfg : SelCfg) (s : SelState) : SelState :=
  let ms := computeMatches fz s.query cfg.optionsStr
  let res := if ms.length ≠ 0 then ms.getD s.focus "" else s.result
  { s with fmatches := ms, result := res }

/-- Initial placement of the default option (single-select `Show`, the
`p.defaultOptionStr != ""` block).  `mh` is the local `maxHeight`. -/
def applyDefaultOption (cfg : SelCfg) (mh : Int) (s : SelState) : SelState :=
  if cfg.defaultOptionStr = "" then s
  else
    match cfg.optionsStr.findIdx? (fun o => o = cfg.defaultOptionStr) with
    | none => s
    | some i =>
      if 0 < i ∧ mh < (cfg.optionsStr.length : Int) then
        let e := min ((i : Int) - 1 + mh) (cfg.optionsStr.length : Int)
        { s with focus := i, winStart := e - mh, winEnd := e }
      else
        { s with focus := i, winStart := 0, winEnd := mh }

/-- Start of single-select `Show`, up to the keyboard listener: seed the
match list, apply the `MaxHeight == 0` fallback, reject an empty option
list (before any render), place the default option, then render once for
`DefaultArea.Start` and once for the following `area.Update`.  An error
carries the number of renders performed before it was returned. -/
def selInit (fz : FuzzyLib) (cfg : SelCfg) : Except (ShowErr × Nat) SelState :=
  let matches0 := cfg.optionsStr
  let maxH := if cfg.maxHeight = 0 then libraryDefaultMaxHeight else cfg.maxHeight
  let mh := if maxH > (matches0.length : Int) then (matches0.length : Int) else maxH
  if cfg.optionsStr.length = 0 then .error (.noOptions, 0)
  else
    let s0 : SelState :=
      { query := [], focus := 0, fmatches := matches0, winStart := 0, winEnd := mh
        maxH := maxH, result := "" }
    let s1 := applyDefaultOption cfg mh s0
    .ok (selRender fz cfg (selRender fz cfg s1))

/-- One key event of the single-select listener.  Returns the new state and
the `stop` flag of the `keyboard.Listen` callback. -/
def selStep (fz : FuzzyLib) (cfg : SelCfg) (s : SelState) (k : Key) : SelState × Bool :=
  let mh : Int := if s.maxH > (s.fmatches.length : Int) then (s.fmatches.length : Int) else s.maxH
  match k.code with
  | .runeK =>
    if cfg.filter then
      (selRender fz cfg
        { s with query := s.query ++ k.runes, focus := 0, winStart := 0, winEnd := mh }, false)
    else (s, false)
  | .space =>
    (selRender fz cfg { s with query := s.query ++ [' '], focus := 0 }, false)
  | .backspace =>
    let q := if s.query.length > 0 then s.query.dropLast else s.query
    let s1 := { s with query := q, fmatches := if q = [] then cfg.optionsStr else s.fmatches }
    let s2 := selRender fz cfg s1
    let mh2 : Int :=
      if (s2.fmatches.length : Int) > s2.maxH then s2.maxH else (s2.fmatches.length : Int)
    (selRender fz cfg { s2 with focus := 0, winStart := 0, winEnd := mh2 }, false)
  | .up | .ctrlP =>
    if s.fmatches.length = 0 then (s, false)
    else
      let w := navUp mh s.fmatches.length ⟨s.focus, s.winStart, s.winEnd⟩
      (selRender fz cfg { s with focus := w.focus, winStart := w.start, winEnd := w.stop }, false)
  | .down | .ctrlN =>
    if s.fmatches.length = 0 then (s, false)
    else
      let w := navDown mh s.fmatches.length ⟨s.focus, s.winStart, s.winEnd⟩
      (selRender fz cfg { s with focus := w.focus, winStart := w.start, winEnd := w.stop }, false)
  | .ctrlC => (s, true)
  | .enter =>
    if s.fmatches.length = 0 then (s, false) else (s, true)
  | _ => (s, false)

/-- Event loop of the single-select engine over a finite stream of key
events (the listener consumes one event at a time and stops when the
callback returns `true`). -/
def selLoop (fz : FuzzyLib) (cfg : SelCfg) : SelState → List Key → SelState
  | s, [] => s
  | s, k :: ks =>
    let r := selStep fz cfg s k
    if r.2 then r.1 else selLoop fz cfg r.1 ks

/-- Whole single-select `Show`: initialization, then the event loop, then
the returned value `p.Options[p.selectedOption]` (modelled by its display
text).  The final state is also returned so that rendered data (such as
`p.result`) can be observed. -/
def selShow (fz : FuzzyLib) (cfg : SelCfg) (ks : List Key) :
    Except (ShowErr × Nat) (String × SelState) :=
  match selInit fz cfg with
  | .error e => .error e
  | .ok s0 =>
    let sF := selLoop fz cfg s0 ks
    .ok (cfg.optionsStr.getD sF.focus "", sF)

/-! ### Multi-select engine (`GenericInteractiveMultiselectPrinter`) -/

/-- Caller-facing configuration of the multi-select engine. -/
structure MsCfg where
  optionsStr : List String
  maxHeight : Int
  filter : Bool
  keySelect : KeyCode
  keyConfirm : KeyCode
  enableSelectAll : Bool
  enableClearAll : Bool
deriving DecidableEq, Repr

/-- Mutable state of one multi-select `Show` invocation.  `selectedOptions`
is the Go `[]int` of candidate-store indices, in insertion order. -/
structure MsState where
  query : List Char
  focus : Nat
  fmatches : List String
  winStart : Int
  winEnd : Int
  maxH : Int
  selectedOptions : List Int
deriving DecidableEq, Repr

/-- Constructor defaults of `NewGenericInteractiveMultiselect`. -/
def newMsCfg (optionsStr : List String) : MsCfg :=
  { optionsStr := optionsStr, maxHeight := 5, filter := true
    keySelect := .enter, keyConfirm := .tab
    enableSelectAll := true, enableClearAll := true }

/-- Go indexing `p.optionsStr[i]` for an `int` index held in
`selectedOptions` (out-of-range indices are unreachable along executed
paths; the total model returns the empty string there). -/
def getStrAt (opts : List String) (i : Int) : String :=
  if i < 0 then "" else opts.getD i.toNat ""

/-- `findOptionByText`: index of the first option whose display text equals
`text`, `-1` when absent. -/
def findOptionByTextAux (opts : List String) (text : String) (i : Int) : Int :=
  match opts with
  | [] => -1
  | o :: os => if o = text then i else findOptionByTextAux os text (i + 1)

/-- First candidate-store index with the given display text (`-1` if none). -/
def findOptionByText (opts : List String) (text : String) : Int :=
  findOptionByTextAux opts text 0

/-- `isSelected`: membership of a display text in the selection set,
evaluated by comparing `optionsStr[selectedOption]` with the text. -/
def isSelected (opts : List String) (sel : List Int) (text : String) : Bool :=
  sel.any (fun j => getStrAt opts j = text)

/-- Removal step of `selectOption`: drop the first stored index whose
display text agrees. -/
def removeFirstByText (opts : List String) (sel : List Int) (text : String) : List Int :=
  match sel with
  | [] => []
  | j :: js => if getStrAt opts j = text then js else j :: removeFirstByText opts js text

/-- `selectOption`: toggle the display text, removing the first matching
stored index or appending `findOptionByText`. -/
def selectOption (opts : List String) (sel : List Int) (text : String) : List Int :=
  if isSelected opts sel text then removeFirstByText opts sel text
  else sel ++ [findOptionByText opts text]

/-- `getSelectedOptions`: the options at the stored indices, in stored
(insertion) order, modelled by display text. -/
def getSelectedOptions (opts : List String) (sel : List Int) : List String :=
  sel.map (getStrAt opts)

/-- State effect of the multiselect `renderSelectMenu`: recompute
`fuzzySearchMatches` from the current query (everything else it does is
pure output). -/
def msRender (fz : FuzzyLib) (cfg : MsCfg) (s : MsState) : MsState :=
  { s with fmatches := computeMatches fz s.query cfg.optionsStr }

/-- Start of multi-select `Show`, up to the keyboard listener: seed the
match list, apply the `MaxHeight == 0` fallback, reject an empty option
list (before any render), render for `DefaultArea.Start`, reject the
space-key configuration conflict, then render for `area.Update`.  An error
carries the number of renders performed before it was returned. -/
def msInit (fz : FuzzyLib) (cfg : MsCfg) : Except (ShowErr × Nat) MsState :=
  let matches0 := cfg.optionsStr
  let maxH := if cfg.maxHeight = 0 then libraryDefaultMaxHeight else cfg.maxHeight
  let mh := if maxH > (matches0.length : Int) then (matches0.length : Int) else maxH
  if cfg.optionsStr.length = 0 then .error (.noOptions, 0)
  else
    let s0 : MsState :=
      { query := [], focus := 0, fmatches := matches0, winStart := 0, winEnd := mh
        maxH := maxH, selectedOptions := [] }
    let s1 := msRender fz cfg s0
    if cfg.filter = true ∧ (cfg.keyConfirm = KeyCode.space ∨ cfg.keySelect = KeyCode.space) then
      .error (.spaceKeyConflict, 1)
    else
      .ok (msRender fz cfg s1)

/-- One key event of the multiselect listener.  The configured confirm and
select keys are matched first, mirroring the order of the Go `switch`
cases. -/
def msStep (fz : FuzzyLib) (cfg : MsCfg) (s : MsState) (k : Key) : MsState × Bool :=
  let mh : Int := if s.maxH > (s.fmatches.length : Int) then (s.fmatches.length : Int) else s.maxH
  if k.code = cfg.keyConfirm then
    if s.fmatches.length = 0 then (s, false) else (s, true)
  else if k.code = cfg.keySelect then
    let s1 :=
      if s.fmatches.length > 0 then
        { s with selectedOptions :=
            selectOption cfg.optionsStr s.selectedOptions (s.fmatches.getD s.focus "") }
      else s
    (msRender fz cfg s1, false)
  else
    match k.code with
    | .runeK =>
      let s1 :=
        if cfg.filter then
          { s with query := s.query ++ k.runes, focus := 0, winStart := 0, winEnd := mh }
        else s
      (msRender fz cfg s1, false)
    | .space =>
      if cfg.filter then
        (msRender fz cfg { s with query := s.query ++ [' '], focus := 0 }, false)
      else (s, false)
    | .backspace =>
      let q := if s.query.length > 0 then s.query.dropLast else s.query
      let s1 := { s with query := q, fmatches := if q = [] then cfg.optionsStr else s.fmatches }
      let s2 := msRender fz cfg s1
      let mh2 : Int :=
        if (s2.fmatches.length : Int) > s2.maxH then s2.maxH else (s2.fmatches.length : Int)
      (msRender fz cfg { s2 with focus := 0, winStart := 0, winEnd := mh2 }, false)
    | .left =>
      if cfg.enableClearAll then (msRender fz cfg { s with selectedOptions := [] }, false)
      else (s, false)
    | .right =>
      if cfg.enableSelectAll then
        (msRender fz cfg
          { s with selectedOptions := (List.range cfg.optionsStr.length).map Int.ofNat }, false)
      else (s, false)
    | .up | .ctrlP =>
      if s.fmatches.length = 0 then (s, false)
      else
        let w := navUp mh s.fmatches.length ⟨s.focus, s.winStart, s.winEnd⟩
        (msRender fz cfg { s with focus := w.focus, winStart := w.start, winEnd := w.stop }, false)
    | .down | .ctrlN =>
      if s.fmatches.length = 0 then (s, false)
      else
        let w := navDown mh s.fmatches.length ⟨s.focus, s.winStart, s.winEnd⟩
        (msRender fz cfg { s with focus := w.focus, winStart := w.start, winEnd := w.stop }, false)
    | .ctrlC => (s, true)
    | _ => (s, false)

/-- Event loop of the multi-select engine over a finite stream of key
events. -/
def msLoop (fz : FuzzyLib) (cfg : MsCfg) : MsState → List Key → MsState
  | s, [] => s
  | s, k :: ks =>
    let r := msStep fz cfg s k
    if r.2 then r.1 else msLoop fz cfg r.1 ks

/-- Whole multi-select `Show`: initialization, event loop, then
`p.getSelectedOptions()` (options modelled by display text), together with
the final state. -/
def msShow (fz : FuzzyLib) (cfg : MsCfg) (ks : List Key) :
    Except (ShowErr × Nat) (List String × MsState) :=
  match msInit fz cfg with
  | .error e => .error e
  | .ok s0 =>
    let sF := msLoop fz cfg s0 ks
    .ok (getSelectedOptions cfg.optionsStr sF.selectedOptions, sF)

/-! ### Concrete key events used in closed evaluations -/

/-- Down-arrow key event. -/
def kd : Key := ⟨.down, []⟩

/-- Up-arrow key event. -/
def ku : Key := ⟨.up, []⟩

/-- Space key event. -/
def ksp : Key := ⟨.space, []⟩

/-- Backspace key event. -/
def kbs : Key := ⟨.backspace, []⟩

/-- Enter key event. -/
def ken : Key := ⟨.enter, []⟩

/-- Tab key event. -/
def ktab : Key := ⟨.tab, []⟩

/-- Printable-character key event. -/
def kr (c : Char) : Key := ⟨.runeK, [c]⟩

/-! ### Helper lemmas -/

/-- With an all-accepting empty query, the filter stage is the identity
pass: the filtered list equals the candidate store in original order and
the rank sort is skipped. -/
theorem computeMatches_nil (fz : FuzzyLib) (hq : EmptyMatchesAll fz) (opts : List String) :
    computeMatches fz [] opts = opts := by
  unfold computeMatches
  have h : opts.filter (fz.matchq []) = opts :=
    List.filter_eq_self.mpr (fun a _ => hq a)
  simp [h]

/-- Subsequence matching accepts the empty needle. -/
theorem isSubseqFold_nil (l : List Char) : isSubseqFold [] l = true := by
  cases l <;> rfl

/-- The concrete fuzzy model satisfies the empty-query assumption. -/
theorem fzModel_empty : EmptyMatchesAll fzModel := fun s => isSubseqFold_nil s.toList

/-- A render whose recomputation would not change the match list is the
identity on the multiselect state. -/
theorem msRender_eq_self (fz : FuzzyLib) (cfg : MsCfg) (s : MsState)
    (h : computeMatches fz s.query cfg.optionsStr = s.fmatches) :
    msRender fz cfg s = s := by
  cases s
  simp_all [msRender]

/-! ### The viewport containment invariant -/

/-- Containment invariant of the viewport window and focus index:
`0 ≤ start ≤ focus < end ≤ len(filtered)` with a window no wider than the
configured maximum height. -/
def winInv (maxH : Int) (len : Nat) (w : Win) : Prop :=
  0 ≤ w.start ∧ w.start ≤ (w.focus : Int) ∧ (w.focus : Int) < w.stop ∧
    w.stop ≤ (len : Int) ∧ w.stop - w.start ≤ maxH

instance (maxH : Int) (len : Nat) (w : Win) : Decidable (winInv maxH len w) := by
  unfold winInv; infer_instance

/-- Up navigation preserves the containment invariant (with the local
`maxHeight` clamped to the match count, as recomputed at the top of the
listener callback). -/
theorem navUp_winInv (maxH : Int) (len : Nat) (w : Win)
    (hm : 0 < maxH) (hl : 0 < len) (h : winInv maxH len w) :
    winInv maxH len (navUp (if maxH > (len : Int) then (len : Int) else maxH) len w) := by
  obtain ⟨h1, h2, h3, h4, h5⟩ := h
  simp only [navUp]
  split_ifs <;> simp only [winInv] <;> simp <;> omega

/-- Down navigation preserves the containment invariant. -/
theorem navDown_winInv (maxH : Int) (len : Nat) (w : Win)
    (hm : 0 < maxH) (hl : 0 < len) (h : winInv maxH len w) :
    winInv maxH len (navDown (if maxH > (len : Int) then (len : Int) else maxH) len w) := by
  obtain ⟨h1, h2, h3, h4, h5⟩ := h
  simp only [navDown]
  split_ifs <;> simp only [winInv] <;> simp <;> omega

/-- Inner state invariant maintained by navigation-only event sequences in
the single-select engine: the query is still empty, the match list equals
the candidate store, the resolved maximum height is positive, and the
viewport containment invariant holds. -/
def SelNavInv (cfg : SelCfg) (s : SelState) : Prop :=
  s.query = [] ∧ s.fmatches = cfg.optionsStr ∧ 0 < s.maxH ∧
    winInv s.maxH cfg.optionsStr.length ⟨s.focus, s.winStart, s.winEnd⟩

/-- Render after a navigation move keeps the single-select navigation
invariant. -/
theorem selNavInv_render (fz : FuzzyLib) (cfg : SelCfg) (hq : EmptyMatchesAll fz)
    (s : SelState) (w : Win) (hq0 : s.query = []) (hmh : 0 < s.maxH)
    (hw : winInv s.maxH cfg.optionsStr.length w) :
    SelNavInv cfg
      (selRender fz cfg { s with focus := w.focus, winStart := w.start, winEnd := w.stop }) := by
  unfold SelNavInv selRender
  rw [hq0, computeMatches_nil fz hq]
  exact ⟨rfl, rfl, hmh, hw⟩

/-- Up and down key events preserve the single-select navigation
invariant. -/
theorem selStep_nav (fz : FuzzyLib) (cfg : SelCfg) (hq : EmptyMatchesAll fz)
    (ho : cfg.optionsStr ≠ []) (s : SelState) (k : Key)
    (hk : k.code = KeyCode.up ∨ k.code = KeyCode.down)
    (h : SelNavInv cfg s) : SelNavInv cfg (selStep fz cfg s k).1 := by
  obtain ⟨hq0, hm, hmh, hw⟩ := h
  have hl : cfg.optionsStr.length ≠ 0 := by simpa using ho
  have hl0 : 0 < cfg.optionsStr.length := Nat.pos_of_ne_zero hl
  rcases hk with hk | hk <;>
    simp only [selStep, hk, hm, if_neg hl] <;>
    exact selNavInv_render fz cfg hq _ _ hq0 hmh
      (by first
        | exact navUp_winInv s.maxH cfg.optionsStr.length _ hmh hl0 hw
        | exact navDown_winInv s.maxH cfg.optionsStr.length _ hmh hl0 hw)

/-- Up and down key events never stop the single-select listener. -/
theorem selStep_nav_stop (fz : FuzzyLib) (cfg : SelCfg) (s : SelState) (k : Key)
    (hk : k.code = KeyCode.up ∨ k.code = KeyCode.down) :
    (selStep fz cfg s k).2 = false := by
  rcases hk with hk | hk <;> simp only [selStep, hk] <;> split_ifs <;> rfl

/-- The single-select event loop preserves the navigation invariant over
any sequence of up and down key events. -/
theorem selLoop_nav (fz : FuzzyLib) (cfg : SelCfg) (hq : EmptyMatchesAll fz)
    (ho : cfg.optionsStr ≠ []) :
    ∀ (ks : List Key) (s : SelState),
      (∀ k ∈ ks, k.code = KeyCode.up ∨ k.code = KeyCode.down) →
      SelNavInv cfg s → SelNavInv cfg (selLoop fz cfg s ks)
  | [], s, _, h => h
  | k :: ks, s, hks, h => by
    have hk := hks k (List.mem_cons_self k ks)
    have h1 := selStep_nav fz cfg hq ho s k hk h
    have h2 := selStep_nav_stop fz cfg s k hk
    simp only [selLoop, h2, if_neg Bool.false_ne_true]
    exact selLoop_nav fz cfg hq ho ks _ (fun x hx => hks x (List.mem_cons_of_mem k hx)) h1

/-- A successful single-select initialization (without a configured default
option) establishes the navigation invariant. -/
theorem selInit_nav (fz : FuzzyLib) (cfg : SelCfg) (hq : EmptyMatchesAll fz)
    (hdef : cfg.defaultOptionStr = "")
    (hmh : 0 < (if cfg.maxHeight = 0 then libraryDefaultMaxHeight else cfg.maxHeight))
    (s0 : SelState) (h : selInit fz cfg = .ok s0) : SelNavInv cfg s0 := by
  unfold selInit at h
  by_cases hl : cfg.optionsStr.length = 0
  · rw [if_pos hl] at h
    exact absurd h (by simp)
  · rw [if_neg hl] at h
    simp only [applyDefaultOption, hdef, if_pos] at h
    rw [Except.ok.injEq] at h
    subst h
    unfold SelNavInv selRender
    simp only [computeMatches_nil fz hq]
    refine ⟨by trivial, by trivial, hmh, ?_⟩
    have hl0 : 0 < cfg.optionsStr.length := Nat.pos_of_ne_zero hl
    unfold winInv
    simp only []
    split_ifs <;> simp <;> omega

/-- Inner state invariant maintained by navigation-only event sequences in
the multi-select engine. -/
def MsNavInv (cfg : MsCfg) (s : MsState) : Prop :=
  s.query = [] ∧ s.fmatches = cfg.optionsStr ∧ 0 < s.maxH ∧
    winInv s.maxH cfg.optionsStr.length ⟨s.focus, s.winStart, s.winEnd⟩

/-- Render after a navigation move keeps the multiselect navigation
invariant. -/
theorem msNavInv_render (fz : FuzzyLib) (cfg : MsCfg) (hq : EmptyMatchesAll fz)
    (s : MsState) (w : Win) (hq0 : s.query = []) (hmh : 0 < s.maxH)
    (hw : winInv s.maxH cfg.optionsStr.length w) :
    MsNavInv cfg
      (msRender fz cfg { s with focus := w.focus, winStart := w.start, winEnd := w.stop }) := by
  unfold MsNavInv msRender
  rw [hq0, computeMatches_nil fz hq]
  exact ⟨rfl, rfl, hmh, hw⟩

/-- Up and down key events preserve the multiselect navigation invariant
(when the configured select and confirm keys are not the arrow keys, as in
the constructor defaults). -/
theorem msStep_nav (fz : FuzzyLib) (cfg : MsCfg) (hq : EmptyMatchesAll fz)
    (ho : cfg.optionsStr ≠ [])
    (hkc : cfg.keyConfirm ≠ KeyCode.up ∧ cfg.keyConfirm ≠ KeyCode.down)
    (hks : cfg.keySelect ≠ KeyCode.up ∧ cfg.keySelect ≠ KeyCode.down)
    (s : MsState) (k : Key) (hk : k.code = KeyCode.up ∨ k.code = KeyCode.down)
    (h : MsNavInv cfg s) : MsNavInv cfg (msStep fz cfg s k).1 := by
  obtain ⟨hq0, hm, hmh, hw⟩ := h
  have hl : cfg.optionsStr.length ≠ 0 := by simpa using ho
  have hl0 : 0 < cfg.optionsStr.length := Nat.pos_of_ne_zero hl
  rcases hk with hk | hk <;>
    simp only [msStep, hk, hm, if_neg hl, if_neg (Ne.symm hkc.1), if_neg (Ne.symm hkc.2),
      if_neg (Ne.symm hks.1), if_neg (Ne.symm hks.2)] <;>
    exact msNavInv_render fz cfg hq _ _ hq0 hmh
      (by first
        | exact navUp_winInv s.maxH cfg.optionsStr.length _ hmh hl0 hw
        | exact navDown_winInv s.maxH cfg.optionsStr.length _ hmh hl0 hw)

/-- Up and down key events never stop the multiselect listener (under the
same key-configuration side conditions). -/
theorem msStep_nav_stop (fz : FuzzyLib) (cfg : MsCfg) (s : MsState) (k : Key)
    (hkc : cfg.keyConfirm ≠ KeyCode.up ∧ cfg.keyConfirm ≠ KeyCode.down)
    (hks : cfg.keySelect ≠ KeyCode.up ∧ cfg.keySelect ≠ KeyCode.down)
    (hk : k.code = KeyCode.up ∨ k.code = KeyCode.down) :
    (msStep fz cfg s k).2 = false := by
  rcases hk with hk | hk <;>
    simp only [msStep, hk, if_neg (Ne.symm hkc.1), if_neg (Ne.symm hkc.2),
      if_neg (Ne.symm hks.1), if_neg (Ne.symm hks.2)] <;>
    split_ifs <;> rfl

/-- The multiselect event loop preserves the navigation invariant over any
sequence of up and down key events. -/
theorem msLoop_nav (fz : FuzzyLib) (cfg : MsCfg) (hq : EmptyMatchesAll fz)
    (ho : cfg.optionsStr ≠ [])
    (hkc : cfg.keyConfirm ≠ KeyCode.up ∧ cfg.keyConfirm ≠ KeyCode.down)
    (hks : cfg.keySelect ≠ KeyCode.up ∧ cfg.keySelect ≠ KeyCode.down) :
    ∀ (ks : List Key) (s : MsState),
      (∀ k ∈ ks, k.code = KeyCode.up ∨ k.code = KeyCode.down) →
      MsNavInv cfg s → MsNavInv cfg (msLoop fz cfg s ks)
  | [], s, _, h => h
  | k :: ks, s, hall, h => by
    have hk := hall k (List.mem_cons_self k ks)
    have h1 := msStep_nav fz cfg hq ho hkc hks s k hk h
    have h2 := msStep_nav_stop fz cfg s k hkc hks hk
    simp only [msLoop, h2, if_neg Bool.false_ne_true]
    exact msLoop_nav fz cfg hq ho hkc hks ks _ (fun x hx => hall x (List.mem_cons_of_mem k hx)) h1

/-- A successful multiselect initialization establishes the navigation
invariant. -/
theorem msInit_nav (fz : FuzzyLib) (cfg : MsCfg) (hq : EmptyMatchesAll fz)
    (hmh : 0 < (if cfg.maxHeight = 0 then libraryDefaultMaxHeight else cfg.maxHeight))
    (s0 : MsState) (h : msInit fz cfg = .ok s0) : MsNavInv cfg s0 := by
  unfold msInit at h
  by_cases hl : cfg.optionsStr.length = 0
  · rw [if_pos hl] at h
    exact absurd h (by simp)
  · rw [if_neg hl] at h
    by_cases hsp :
        cfg.filter = true ∧ (cfg.keyConfirm = KeyCode.space ∨ cfg.keySelect = KeyCode.space)
    · rw [if_pos hsp] at h
      exact absurd h (by simp)
    · rw [if_neg hsp] at h
      rw [Except.ok.injEq] at h
      subst h
      unfold MsNavInv msRender
      simp only [computeMatches_nil fz hq]
      refine ⟨by trivial, by trivial, hmh, ?_⟩
      have hl0 : 0 < cfg.optionsStr.length := Nat.pos_of_ne_zero hl
      unfold winInv
      simp only []
      split_ifs <;> simp <;> omega

/-! ### Claim C1 -/

/-- Configuration of the C1 evaluation: options apple and banana, default
settings otherwise. -/
def cfgApple : SelCfg := { newSelCfg with optionsStr := ["apple", "banana"] }

/-- C1: the claim says single-select `Show`, on confirm with a non-empty
filtered list, returns exactly the Option whose display text is the focused
entry of the filtered list.  The code instead returns
`p.Options[p.selectedOption]`, indexing the original option list with the
filtered-list focus index: with options apple/banana, typing `b` narrows
the filtered list to banana (focused, and rendered as the result), yet
`Show` returns apple.  This contradicts the engine's own rendering
(`p.result` is the focused match) — a code bug, not a spec error. -/
theorem c1_confirm_returns_misindexed_option :
    selShow fzModel cfgApple [kr 'b', ken] =
      .ok ("apple",
        { query := ['b'], focus := 0, fmatches := ["banana"], winStart := 0, winEnd := 2,
          maxH := 5, result := "banana" }) ∧
    "apple" ≠ "banana" := by
  exact ⟨rfl, by decide⟩

/-! ### Claim C2 -/

/-- Configuration of the C2 counterexample: six options (each containing a
space so that a space query still matches all of them). -/
def cfgSix : SelCfg :=
  { newSelCfg with optionsStr := ["a 1", "a 2", "a 3", "a 4", "a 5", "a 6"] }

/-- State produced by `selInit` on `cfgSix`. -/
def sSix0 : SelState :=
  { query := [], focus := 0, fmatches := ["a 1", "a 2", "a 3", "a 4", "a 5", "a 6"]
    winStart := 0, winEnd := 5, maxH := 5, result := "a 1" }

/-- State after pressing down five times and then space on `cfgSix`. -/
def sSixF : SelState :=
  { query := [' '], focus := 0, fmatches := ["a 1", "a 2", "a 3", "a 4", "a 5", "a 6"]
    winStart := 1, winEnd := 6, maxH := 5, result := "a 1" }

/-- C2 counterexample: the claim quantifies over every sequence of key
events, but a space append (a query-changing event) resets the focus to 0
while leaving the viewport window untouched.  After five downs the window
is [1,6); the following space leaves start = 1 > focus = 0 with a
non-empty filtered list, violating the claimed containment. -/
theorem c2_invariant_counterexample :
    selInit fzModel cfgSix = .ok sSix0 ∧
    selLoop fzModel cfgSix sSix0 [kd, kd, kd, kd, kd, ksp] = sSixF ∧
    sSixF.fmatches ≠ [] ∧
    ¬ winInv sSixF.maxH sSixF.fmatches.length ⟨sSixF.focus, sSixF.winStart, sSixF.winEnd⟩ := by
  exact ⟨rfl, rfl, by decide, by decide⟩

/-- C2 (amended): for every non-empty candidate store, positive resolved
maximum height, default-option-free single-select configuration, arrow-free
select/confirm bindings, and every sequence of up/down navigation key
events, after the events are processed the filtered list is non-empty, the
focus index lies in [0, len(filtered)), and the viewport window satisfies
0 ≤ start ≤ focus < end ≤ len(filtered) with end − start ≤ MaxHeight — in
both engines.  (The original claim fails for query-changing events, which
reset the focus without moving the window.) -/
theorem c2_nav_invariant (fz : FuzzyLib) (cfgS : SelCfg) (cfgM : MsCfg) (ks : List Key)
    (hq : EmptyMatchesAll fz)
    (hnav : ∀ k ∈ ks, k.code = KeyCode.up ∨ k.code = KeyCode.down)
    (hoS : cfgS.optionsStr ≠ []) (hdefS : cfgS.defaultOptionStr = "")
    (hmS : 0 < (if cfgS.maxHeight = 0 then libraryDefaultMaxHeight else cfgS.maxHeight))
    (hoM : cfgM.optionsStr ≠ [])
    (hmM : 0 < (if cfgM.maxHeight = 0 then libraryDefaultMaxHeight else cfgM.maxHeight))
    (hkc : cfgM.keyConfirm ≠ KeyCode.up ∧ cfgM.keyConfirm ≠ KeyCode.down)
    (hksel : cfgM.keySelect ≠ KeyCode.up ∧ cfgM.keySelect ≠ KeyCode.down) :
    (∀ s0, selInit fz cfgS = .ok s0 →
      (selLoop fz cfgS s0 ks).fmatches ≠ [] ∧
      winInv (selLoop fz cfgS s0 ks).maxH (selLoop fz cfgS s0 ks).fmatches.length
        ⟨(selLoop fz cfgS s0 ks).focus, (selLoop fz cfgS s0 ks).winStart,
          (selLoop fz cfgS s0 ks).winEnd⟩) ∧
    (∀ s0, msInit fz cfgM = .ok s0 →
      (msLoop fz cfgM s0 ks).fmatches ≠ [] ∧
      winInv (msLoop fz cfgM s0 ks).maxH (msLoop fz cfgM s0 ks).fmatches.length
        ⟨(msLoop fz cfgM s0 ks).focus, (msLoop fz cfgM s0 ks).winStart,
          (msLoop fz cfgM s0 ks).winEnd⟩) := by
  constructor
  · intro s0 h0
    have hinv := selLoop_nav fz cfgS hq hoS ks s0 hnav (selInit_nav fz cfgS hq hdefS hmS s0 h0)
    obtain ⟨_, hm, _, hw⟩ := hinv
    rw [hm]
    exact ⟨hoS, hw⟩
  · intro s0 h0
    have hinv := msLoop_nav fz cfgM hq hoM hkc hksel ks s0 hnav (msInit_nav fz cfgM hq hmM s0 h0)
    obtain ⟨_, hm, _, hw⟩ := hinv
    rw [hm]
    exact ⟨hoM, hw⟩

/-- Single-select configuration used by the C2 witness. -/
def cfgW2 : SelCfg := { newSelCfg with optionsStr := ["a", "b", "c"] }

/-- Initial single-select state of the C2 witness. -/
def sW2 : SelState :=
  { query := [], focus := 0, fmatches := ["a", "b", "c"], winStart := 0, winEnd := 3
    maxH := 5, result := "a" }

/-- Initial multiselect state of the C2 witness. -/
def sW2m : MsState :=
  { query := [], focus := 0, fmatches := ["a", "b", "c"], winStart := 0, winEnd := 3
    maxH := 5, selectedOptions := [] }

/-- Witness for `c2_nav_invariant` at a concrete configuration and key
sequence. -/
theorem c2_nav_invariant_witness :
    ((selLoop fzModel cfgW2 sW2 [kd, kd, ku]).fmatches ≠ [] ∧
      winInv (selLoop fzModel cfgW2 sW2 [kd, kd, ku]).maxH
        (selLoop fzModel cfgW2 sW2 [kd, kd, ku]).fmatches.length
        ⟨(selLoop fzModel cfgW2 sW2 [kd, kd, ku]).focus,
          (selLoop fzModel cfgW2 sW2 [kd, kd, ku]).winStart,
          (selLoop fzModel cfgW2 sW2 [kd, kd, ku]).winEnd⟩) ∧
    ((msLoop fzModel (newMsCfg ["a", "b", "c"]) sW2m [kd, kd, ku]).fmatches ≠ [] ∧
      winInv (msLoop fzModel (newMsCfg ["a", "b", "c"]) sW2m [kd, kd, ku]).maxH
        (msLoop fzModel (newMsCfg ["a", "b", "c"]) sW2m [kd, kd, ku]).fmatches.length
        ⟨(msLoop fzModel (newMsCfg ["a", "b", "c"]) sW2m [kd, kd, ku]).focus,
          (msLoop fzModel (newMsCfg ["a", "b", "c"]) sW2m [kd, kd, ku]).winStart,
          (msLoop fzModel (newMsCfg ["a", "b", "c"]) sW2m [kd, kd, ku]).winEnd⟩) := by
  have h := c2_nav_invariant fzModel cfgW2 (newMsCfg ["a", "b", "c"]) [kd, kd, ku]
    fzModel_empty (by decide) (by decide) rfl (by decide) (by decide) (by decide)
    (by decide) (by decide)
  exact ⟨h.1 sW2 rfl, h.2 sW2m rfl⟩

/-! ### Claim C3 -/

/-- Multiselect configuration of the C3 counterexample: six options, each
containing a space. -/
def cfgSixM : MsCfg := newMsCfg ["a 1", "a 2", "a 3", "a 4", "a 5", "a 6"]

/-- State produced by `msInit` on `cfgSixM`. -/
def sSixM0 : MsState :=
  { query := [], focus := 0, fmatches := ["a 1", "a 2", "a 3", "a 4", "a 5", "a 6"]
    winStart := 0, winEnd := 5, maxH := 5, selectedOptions := [] }

/-- State after pressing down five times and then space on `cfgSixM`. -/
def sSixMF : MsState :=
  { query := [' '], focus := 0, fmatches := ["a 1", "a 2", "a 3", "a 4", "a 5", "a 6"]
    winStart := 1, winEnd := 6, maxH := 5, selectedOptions := [] }

/-- C3 counterexample: a space append is a query-changing event, yet it
does not reset the viewport: after five downs the window is [1,6), and the
space leaves it there (start = 1 ≠ 0, end = 6 ≠ min(5,6)), resetting only
the focus index. -/
theorem c3_query_reset_counterexample :
    msInit fzModel cfgSixM = .ok sSixM0 ∧
    msLoop fzModel cfgSixM sSixM0 [kd, kd, kd, kd, kd, ksp] = sSixMF ∧
    sSixMF.query = [' '] ∧
    ¬ (sSixMF.winStart = 0 ∧
        sSixMF.winEnd = min sSixMF.maxH (sSixMF.fmatches.length : Int)) := by
  exact ⟨rfl, rfl, rfl, by decide⟩

/-- C3 (amended): in both engines, a printable-character append (filter
enabled) resets focus = 0, start = 0 and end = min(MaxHeight, length of
the filtered list as it was before the re-filtering render); a backspace
resets focus = 0, start = 0 and end = min(MaxHeight, length of the
re-filtered list); a space append resets only the focus index and leaves
the viewport window unchanged. -/
theorem c3_query_event_resets (fz : FuzzyLib) (cfgS : SelCfg) (cfgM : MsCfg)
    (sS : SelState) (sM : MsState) (c : Char)
    (hfS : cfgS.filter = true) (hfM : cfgM.filter = true)
    (hcM : cfgM.keyConfirm ≠ KeyCode.runeK ∧ cfgM.keyConfirm ≠ KeyCode.space ∧
      cfgM.keyConfirm ≠ KeyCode.backspace)
    (hsM : cfgM.keySelect ≠ KeyCode.runeK ∧ cfgM.keySelect ≠ KeyCode.space ∧
      cfgM.keySelect ≠ KeyCode.backspace) :
    ((selStep fz cfgS sS (kr c)).1.focus = 0 ∧
      (selStep fz cfgS sS (kr c)).1.winStart = 0 ∧
      (selStep fz cfgS sS (kr c)).1.winEnd =
        (if sS.maxH > (sS.fmatches.length : Int) then (sS.fmatches.length : Int) else sS.maxH)) ∧
    ((selStep fz cfgS sS ksp).1.focus = 0 ∧
      (selStep fz cfgS sS ksp).1.winStart = sS.winStart ∧
      (selStep fz cfgS sS ksp).1.winEnd = sS.winEnd) ∧
    ((selStep fz cfgS sS kbs).1.focus = 0 ∧
      (selStep fz cfgS sS kbs).1.winStart = 0 ∧
      (selStep fz cfgS sS kbs).1.winEnd =
        min sS.maxH ((selStep fz cfgS sS kbs).1.fmatches.length : Int)) ∧
    ((msStep fz cfgM sM (kr c)).1.focus = 0 ∧
      (msStep fz cfgM sM (kr c)).1.winStart = 0 ∧
      (msStep fz cfgM sM (kr c)).1.winEnd =
        (if sM.maxH > (sM.fmatches.length : Int) then (sM.fmatches.length : Int) else sM.maxH)) ∧
    ((msStep fz cfgM sM ksp).1.focus = 0 ∧
      (msStep fz cfgM sM ksp).1.winStart = sM.winStart ∧
      (msStep fz cfgM sM ksp).1.winEnd = sM.winEnd) ∧
    ((msStep fz cfgM sM kbs).1.focus = 0 ∧
      (msStep fz cfgM sM kbs).1.winStart = 0 ∧
      (msStep fz cfgM sM kbs).1.winEnd =
        min sM.maxH ((msStep fz cfgM sM kbs).1.fmatches.length : Int)) := by
  refine ⟨?_, ?_, ?_, ?_, ?_, ?_⟩
  · simp only [selStep, kr, hfS, if_true, selRender]
    exact ⟨trivial, trivial, trivial⟩
  · simp only [selStep, ksp, selRender]
    exact ⟨trivial, trivial, trivial⟩
  · simp only [selStep, kbs, selRender]
    refine ⟨trivial, trivial, ?_⟩
    simp only [Int.min_def]
    split_ifs <;> omega
  · simp only [msStep, kr, if_neg (Ne.symm hcM.1), if_neg (Ne.symm hsM.1), hfM, if_true, msRender]
    exact ⟨trivial, trivial, trivial⟩
  · simp only [msStep, ksp, if_neg (Ne.symm hcM.2.1), if_neg (Ne.symm hsM.2.1), hfM, if_true,
      msRender]
    exact ⟨trivial, trivial, trivial⟩
  · simp only [msStep, kbs, if_neg (Ne.symm hcM.2.2), if_neg (Ne.symm hsM.2.2), msRender]
    refine ⟨trivial, trivial, ?_⟩
    simp only [Int.min_def]
    split_ifs <;> omega

/-- Witness for `c3_query_event_resets` at a concrete state with a slid
window. -/
theorem c3_query_event_resets_witness :
    ((selStep fzModel cfgSix sSixF ksp).1.focus = 0 ∧
      (selStep fzModel cfgSix sSixF ksp).1.winStart = sSixF.winStart) ∧
    ((msStep fzModel cfgSixM sSixMF kbs).1.focus = 0 ∧
      (msStep fzModel cfgSixM sSixMF kbs).1.winStart = 0) := by
  have h := c3_query_event_resets fzModel cfgSix cfgSixM sSixF sSixMF 'x' rfl rfl
    (by refine ⟨by decide, by decide, by decide⟩)
    (by refine ⟨by decide, by decide, by decide⟩)
  exact ⟨⟨h.2.1.1, h.2.1.2.1⟩, ⟨h.2.2.2.2.2.1, h.2.2.2.2.2.2.1⟩⟩

/-! ### Claim C4 -/

/-- Single-select configuration with filtering disabled. -/
def cfgAB : SelCfg := { newSelCfg with optionsStr := ["ab"], filter := false }

/-- State produced by `selInit` on `cfgAB`. -/
def sAB0 : SelState :=
  { query := [], focus := 0, fmatches := ["ab"], winStart := 0, winEnd := 1
    maxH := 5, result := "ab" }

/-- State after pressing space on `cfgAB`. -/
def sABF : SelState :=
  { query := [' '], focus := 0, fmatches := [], winStart := 0, winEnd := 1
    maxH := 5, result := "ab" }

/-- C4 counterexample: in the single-select engine the space key is not
guarded by the filter flag, so with filtering disabled a space still
appends to the query; the next render then filters against the space and
the filtered list no longer equals the candidate store. -/
theorem c4_filter_disabled_counterexample :
    cfgAB.filter = false ∧
    selInit fzModel cfgAB = .ok sAB0 ∧
    selLoop fzModel cfgAB sAB0 [ksp] = sABF ∧
    sABF.query ≠ [] ∧
    sABF.fmatches ≠ cfgAB.optionsStr := by
  exact ⟨rfl, rfl, rfl, by decide, by decide⟩

/-- With filtering disabled, every multiselect key event leaves the query
empty and the match list equal to the candidate store. -/
theorem msStep_filter_off (fz : FuzzyLib) (cfg : MsCfg) (hq : EmptyMatchesAll fz)
    (hf : cfg.filter = false) (s : MsState) (k : Key)
    (h : s.query = [] ∧ s.fmatches = cfg.optionsStr) :
    (msStep fz cfg s k).1.query = [] ∧ (msStep fz cfg s k).1.fmatches = cfg.optionsStr := by
  obtain ⟨hq0, hm⟩ := h
  have hcm : computeMatches fz s.query cfg.optionsStr = cfg.optionsStr := by
    rw [hq0]; exact computeMatches_nil fz hq _
  unfold msStep
  by_cases h1 : k.code = cfg.keyConfirm
  · simp only [if_pos h1]
    split_ifs <;> exact ⟨hq0, hm⟩
  · simp only [if_neg h1]
    by_cases h2 : k.code = cfg.keySelect
    · simp only [if_pos h2, msRender]
      split_ifs <;> exact ⟨hq0, hcm⟩
    · simp only [if_neg h2]
      cases hc : k.code <;>
        first
          | exact ⟨hq0, hm⟩
          | (simp only [msRender]
             split_ifs <;> simp_all [computeMatches_nil fz hq])

/-- With filtering disabled and the space key avoided, every single-select
key event leaves the query empty and the match list equal to the candidate
store. -/
theorem selStep_filter_off (fz : FuzzyLib) (cfg : SelCfg) (hq : EmptyMatchesAll fz)
    (hf : cfg.filter = false) (s : SelState) (k : Key) (hks : k.code ≠ KeyCode.space)
    (h : s.query = [] ∧ s.fmatches = cfg.optionsStr) :
    (selStep fz cfg s k).1.query = [] ∧ (selStep fz cfg s k).1.fmatches = cfg.optionsStr := by
  obtain ⟨hq0, hm⟩ := h
  have hcm : computeMatches fz s.query cfg.optionsStr = cfg.optionsStr := by
    rw [hq0]; exact computeMatches_nil fz hq _
  unfold selStep
  cases hc : k.code <;>
    first
      | exact absurd hc hks
      | exact ⟨hq0, hm⟩
      | (simp only [selRender]
         split_ifs <;> simp_all [computeMatches_nil fz hq])

/-- Loop form of `msStep_filter_off`. -/
theorem msLoop_filter_off (fz : FuzzyLib) (cfg : MsCfg) (hq : EmptyMatchesAll fz)
    (hf : cfg.filter = false) :
    ∀ (ks : List Key) (s : MsState),
      s.query = [] ∧ s.fmatches = cfg.optionsStr →
      (msLoop fz cfg s ks).query = [] ∧ (msLoop fz cfg s ks).fmatches = cfg.optionsStr
  | [], _, h => h
  | k :: ks, s, h => by
    have h1 := msStep_filter_off fz cfg hq hf s k h
    simp only [msLoop]
    split
    · exact h1
    · exact msLoop_filter_off fz cfg hq hf ks _ h1

/-- Loop form of `selStep_filter_off`. -/
theorem selLoop_filter_off (fz : FuzzyLib) (cfg : SelCfg) (hq : EmptyMatchesAll fz)
    (hf : cfg.filter = false) :
    ∀ (ks : List Key) (s : SelState),
      (∀ k ∈ ks, k.code ≠ KeyCode.space) →
      s.query = [] ∧ s.fmatches = cfg.optionsStr →
      (selLoop fz cfg s ks).query = [] ∧ (selLoop fz cfg s ks).fmatches = cfg.optionsStr
  | [], _, _, h => h
  | k :: ks, s, hsp, h => by
    have h1 := selStep_filter_off fz cfg hq hf s k (hsp k (List.mem_cons_self k ks)) h
    simp only [selLoop]
    split
    · exact h1
    · exact selLoop_filter_off fz cfg hq hf ks _
        (fun x hx => hsp x (List.mem_cons_of_mem k hx)) h1

/-- A successful multiselect initialization leaves the query empty and the
match list equal to the candidate store. -/
theorem msInit_qm (fz : FuzzyLib) (cfg : MsCfg) (hq : EmptyMatchesAll fz)
    (s0 : MsState) (h : msInit fz cfg = .ok s0) :
    s0.query = [] ∧ s0.fmatches = cfg.optionsStr := by
  unfold msInit at h
  by_cases hl : cfg.optionsStr.length = 0
  · rw [if_pos hl] at h
    exact absurd h (by simp)
  · rw [if_neg hl] at h
    by_cases hsp :
        cfg.filter = true ∧ (cfg.keyConfirm = KeyCode.space ∨ cfg.keySelect = KeyCode.space)
    · rw [if_pos hsp] at h
      exact absurd h (by simp)
    · rw [if_neg hsp] at h
      rw [Except.ok.injEq] at h
      subst h
      simp [msRender, computeMatches_nil fz hq]

/-- Placement of the default option only moves the focus and window: the
query, match list and resolved maximum height are untouched. -/
theorem applyDefaultOption_frame (cfg : SelCfg) (mh : Int) (s : SelState) :
    (applyDefaultOption cfg mh s).query = s.query ∧
    (applyDefaultOption cfg mh s).fmatches = s.fmatches ∧
    (applyDefaultOption cfg mh s).maxH = s.maxH := by
  unfold applyDefaultOption
  split_ifs
  · exact ⟨by trivial, by trivial, by trivial⟩
  · rcases hfi : cfg.optionsStr.findIdx? (fun o => o = cfg.defaultOptionStr) with _ | i <;>
      simp only [hfi] <;>
      first
        | exact ⟨by trivial, by trivial, by trivial⟩
        | (split_ifs <;> exact ⟨by trivial, by trivial, by trivial⟩)

/-- A successful single-select initialization leaves the query empty and
the match list equal to the candidate store (the default-option placement
only moves the focus and window). -/
theorem selInit_qm (fz : FuzzyLib) (cfg : SelCfg) (hq : EmptyMatchesAll fz)
    (s0 : SelState) (h : selInit fz cfg = .ok s0) :
    s0.query = [] ∧ s0.fmatches = cfg.optionsStr := by
  unfold selInit at h
  by_cases hl : cfg.optionsStr.length = 0
  · rw [if_pos hl] at h
    exact absurd h (by simp)
  · rw [if_neg hl] at h
    rw [Except.ok.injEq] at h
    subst h
    simp only [selRender]
    constructor
    · simp [(applyDefaultOption_frame cfg _ _).1]
    · simp [(applyDefaultOption_frame cfg _ _).1, computeMatches_nil fz hq]

/-- C4 (amended): with fuzzy filtering disabled, the multiselect engine
keeps the query empty and the filtered list equal to the candidate store
for every key sequence; the single-select engine does the same for every
key sequence avoiding the space key.  (The original claim fails in the
single-select engine: its space handler is not guarded by the filter flag
and appends to the query.) -/
theorem c4_filter_disabled_invariant (fz : FuzzyLib) (cfgS : SelCfg) (cfgM : MsCfg)
    (hq : EmptyMatchesAll fz) (hfS : cfgS.filter = false) (hfM : cfgM.filter = false) :
    (∀ s0 ks, msInit fz cfgM = .ok s0 →
      (msLoop fz cfgM s0 ks).query = [] ∧ (msLoop fz cfgM s0 ks).fmatches = cfgM.optionsStr) ∧
    (∀ s0 ks, selInit fz cfgS = .ok s0 → (∀ k ∈ ks, k.code ≠ KeyCode.space) →
      (selLoop fz cfgS s0 ks).query = [] ∧ (selLoop fz cfgS s0 ks).fmatches = cfgS.optionsStr) := by
  constructor
  · intro s0 ks h0
    exact msLoop_filter_off fz cfgM hq hfM ks s0 (msInit_qm fz cfgM hq s0 h0)
  · intro s0 ks h0 hsp
    exact selLoop_filter_off fz cfgS hq hfS ks s0 hsp (selInit_qm fz cfgS hq s0 h0)

/-- Multiselect configuration with filtering disabled, used by the C4
witness. -/
def cfgABm : MsCfg := { newMsCfg ["ab"] with filter := false }

/-- Initial multiselect state on `cfgABm`. -/
def sABm0 : MsState :=
  { query := [], focus := 0, fmatches := ["ab"], winStart := 0, winEnd := 1
    maxH := 5, selectedOptions := [] }

/-- Witness for `c4_filter_disabled_invariant` at concrete configurations
and key sequences (the multiselect sequence includes a space). -/
theorem c4_filter_disabled_invariant_witness :
    ((msLoop fzModel cfgABm sABm0 [ksp, kd, kr 'x']).query = [] ∧
      (msLoop fzModel cfgABm sABm0 [ksp, kd, kr 'x']).fmatches = cfgABm.optionsStr) ∧
    ((selLoop fzModel cfgAB sAB0 [kd, kr 'x', ku]).query = [] ∧
      (selLoop fzModel cfgAB sAB0 [kd, kr 'x', ku]).fmatches = cfgAB.optionsStr) := by
  have h := c4_filter_disabled_invariant fzModel cfgAB cfgABm fzModel_empty rfl rfl
  exact ⟨h.1 sABm0 [ksp, kd, kr 'x'] rfl, h.2 sAB0 [kd, kr 'x', ku] rfl (by decide)⟩

/-! ### Claim C5 -/

/-- C5: in the multi-select engine, every query-changing event (printable
character append, space, backspace — dispatched as such, i.e. not bound as
the select or confirm key) leaves the selection set unchanged, and hence
every display text reports the same chosen/unchosen status before and
after the event. -/
theorem c5_selection_preserved_by_query_events (fz : FuzzyLib) (cfg : MsCfg)
    (s : MsState) (k : Key)
    (hkc : k.code ≠ cfg.keyConfirm) (hksel : k.code ≠ cfg.keySelect)
    (hk : k.code = KeyCode.runeK ∨ k.code = KeyCode.space ∨ k.code = KeyCode.backspace) :
    (msStep fz cfg s k).1.selectedOptions = s.selectedOptions ∧
    ∀ t, isSelected cfg.optionsStr (msStep fz cfg s k).1.selectedOptions t =
      isSelected cfg.optionsStr s.selectedOptions t := by
  have hsel : (msStep fz cfg s k).1.selectedOptions = s.selectedOptions := by
    unfold msStep
    simp only [if_neg hkc, if_neg hksel]
    rcases hk with hk | hk | hk <;> rw [hk] <;> simp only [msRender] <;>
      first
        | rfl
        | (split_ifs <;> rfl)
  exact ⟨hsel, fun t => by rw [hsel]⟩

/-- Multiselect configuration of the C5 witness. -/
def cfgW5 : MsCfg := newMsCfg ["alpha", "beta", "gamma"]

/-- Multiselect state of the C5 witness: the filter query `g` is active,
gamma is the only match, and gamma (store index 2) was toggled as chosen
while filtered. -/
def sW5 : MsState :=
  { query := ['g'], focus := 0, fmatches := ["gamma"], winStart := 0, winEnd := 3
    maxH := 5, selectedOptions := [2] }

/-- Witness for `c5_selection_preserved_by_query_events`: clearing the
filter with backspace keeps gamma reported as chosen. -/
theorem c5_selection_preserved_witness :
    (msStep fzModel cfgW5 sW5 kbs).1.selectedOptions = sW5.selectedOptions ∧
    isSelected cfgW5.optionsStr (msStep fzModel cfgW5 sW5 kbs).1.selectedOptions "gamma" = true := by
  have h := c5_selection_preserved_by_query_events fzModel cfgW5 sW5 kbs (by decide) (by decide)
    (Or.inr (Or.inr rfl))
  refine ⟨h.1, ?_⟩
  rw [h.2 "gamma"]
  decide

/-! ### Claim C6 -/

/-- C6: the sequence returned by multi-select `Show` on success is exactly
the original options at the indices of the selection set, in stored order;
and toggling a not-yet-chosen display text appends its candidate-store
index at the end of the stored list, so the stored order is the user's
insertion order (not candidate order). -/
theorem c6_confirm_result_insertion_order (fz : FuzzyLib) (cfg : MsCfg) (ks : List Key)
    (r : List String × MsState) (h : msShow fz cfg ks = .ok r) :
    r.1 = getSelectedOptions cfg.optionsStr r.2.selectedOptions ∧
    ∀ sel t, isSelected cfg.optionsStr sel t = false →
      selectOption cfg.optionsStr sel t = sel ++ [findOptionByText cfg.optionsStr t] := by
  constructor
  · unfold msShow at h
    cases hinit : msInit fz cfg with
    | error e =>
      rw [hinit] at h
      exact absurd h (by simp)
    | ok s0 =>
      rw [hinit] at h
      rw [Except.ok.injEq] at h
      subst h
      rfl
  · intro sel t hns
    simp [selectOption, hns]

/-- Multiselect configuration of the C6 witness. -/
def cfgW6 : MsCfg := newMsCfg ["alpha", "beta", "gamma"]

/-- Key sequence of the C6 witness: move to gamma, select it, move back to
alpha, select it, confirm. -/
def ks6 : List Key := [kd, kd, ken, ku, ku, ken, ktab]

/-- Result of the C6 witness run: gamma then alpha, in selection order. -/
def r6 : List String × MsState :=
  (["gamma", "alpha"],
    { query := [], focus := 0, fmatches := ["alpha", "beta", "gamma"], winStart := 0, winEnd := 3
      maxH := 5, selectedOptions := [2, 0] })

/-- Witness for `c6_confirm_result_insertion_order`: selecting gamma then
alpha returns them in that insertion order, not candidate order. -/
theorem c6_confirm_result_witness :
    getSelectedOptions cfgW6.optionsStr r6.2.selectedOptions = ["gamma", "alpha"] ∧
    selectOption cfgW6.optionsStr [] "gamma" = [] ++ [findOptionByText cfgW6.optionsStr "gamma"] := by
  have h := c6_confirm_result_insertion_order fzModel cfgW6 ks6 r6 rfl
  exact ⟨h.1.symm, h.2 [] "gamma" (by decide)⟩

/-! ### Claim C7 -/

/-- C7: an empty candidate list makes both engines' `Show` return the
`no options provided` error with zero renders performed (before any render,
hence before the loop); the space-key conflict makes the multiselect `Show`
return its configuration error after the initial render but still before
the loop; and whenever initialization fails, the event loop never runs —
`Show` returns the same error for every key sequence. -/
theorem c7_config_errors_before_loop (fz : FuzzyLib) (cfgS : SelCfg) (cfgM : MsCfg) :
    (cfgS.optionsStr = [] → selInit fz cfgS = .error (.noOptions, 0)) ∧
    (cfgM.optionsStr = [] → msInit fz cfgM = .error (.noOptions, 0)) ∧
    (cfgM.filter = true →
      (cfgM.keyConfirm = KeyCode.space ∨ cfgM.keySelect = KeyCode.space) →
      cfgM.optionsStr ≠ [] →
      msInit fz cfgM = .error (.spaceKeyConflict, 1)) ∧
    (∀ e, selInit fz cfgS = .error e → ∀ ks, selShow fz cfgS ks = .error e) ∧
    (∀ e, msInit fz cfgM = .error e → ∀ ks, msShow fz cfgM ks = .error e) := by
  refine ⟨?_, ?_, ?_, ?_, ?_⟩
  · intro h
    unfold selInit
    rw [if_pos (by simp [h])]
  · intro h
    unfold msInit
    rw [if_pos (by simp [h])]
  · intro hf hsp hne
    unfold msInit
    rw [if_neg (by simpa using hne), if_pos ⟨hf, hsp⟩]
  · intro e he ks
    unfold selShow
    rw [he]
  · intro e he ks
    unfold msShow
    rw [he]

/-- Witness for `c7_config_errors_before_loop`: the constructor default
single-select configuration has no options; an empty multiselect option
list errors before any render; binding space as the select key with the
filter on errors after one render. -/
theorem c7_config_errors_witness :
    selShow fzModel newSelCfg [kd] = .error (.noOptions, 0) ∧
    msShow fzModel (newMsCfg []) [kd] = .error (.noOptions, 0) ∧
    msInit fzModel { newMsCfg ["a"] with keySelect := .space } =
      .error (.spaceKeyConflict, 1) := by
  have h1 := c7_config_errors_before_loop fzModel newSelCfg (newMsCfg [])
  have h2 := c7_config_errors_before_loop fzModel newSelCfg
    { newMsCfg ["a"] with keySelect := .space }
  exact ⟨h1.2.2.2.1 _ (h1.1 rfl) [kd], h1.2.2.2.2 _ (h1.2.1 rfl) [kd],
    h2.2.2.1 rfl (Or.inr rfl) (by decide)⟩

/-! ### Claim C8 -/

/-- C8: in both engines, when the filtered list is empty, the up, down,
select and confirm key events are silent no-ops: the state is returned
unchanged and the listener keeps running (stop = false).  For the
multiselect select key, whose handler still re-renders, the state is
render-consistent (the recomputation also yields the empty list), so the
render changes nothing. -/
theorem c8_empty_filtered_noops (fz : FuzzyLib) (cfgS : SelCfg) (cfgM : MsCfg)
    (sS : SelState) (sM : MsState) (kS kM : Key)
    (hS : sS.fmatches = [])
    (hkS : kS.code = KeyCode.up ∨ kS.code = KeyCode.down ∨ kS.code = KeyCode.enter)
    (hM : sM.fmatches = [])
    (hMc : computeMatches fz sM.query cfgM.optionsStr = [])
    (hkM : kM.code = KeyCode.up ∨ kM.code = KeyCode.down ∨
      kM.code = cfgM.keySelect ∨ kM.code = cfgM.keyConfirm) :
    selStep fz cfgS sS kS = (sS, false) ∧ msStep fz cfgM sM kM = (sM, false) := by
  have hlen : sS.fmatches.length = 0 := by rw [hS]; rfl
  have hlenM : sM.fmatches.length = 0 := by rw [hM]; rfl
  have hrend : msRender fz cfgM sM = sM := msRender_eq_self fz cfgM sM (hMc.trans hM.symm)
  constructor
  · rcases hkS with hk | hk | hk <;>
      · simp only [selStep, hk]
        rw [if_pos hlen]
  · by_cases h1 : kM.code = cfgM.keyConfirm
    · simp only [msStep, if_pos h1]
      rw [if_pos hlenM]
    · by_cases h2 : kM.code = cfgM.keySelect
      · simp only [msStep, if_neg h1, if_pos h2]
        rw [if_neg (by omega : ¬ sM.fmatches.length > 0), hrend]
      · rcases hkM with hk | hk | hk | hk
        · rw [hk] at h1 h2
          simp only [msStep, hk]
          rw [if_neg h1, if_neg h2, if_pos hlenM]
        · rw [hk] at h1 h2
          simp only [msStep, hk]
          rw [if_neg h1, if_neg h2, if_pos hlenM]
        · exact absurd hk h2
        · exact absurd hk h1

/-- Single-select state of the C8 witness: query `z` matches nothing. -/
def sW8 : SelState :=
  { query := ['z'], focus := 0, fmatches := [], winStart := 0, winEnd := 1
    maxH := 5, result := "abc" }

/-- Multiselect state of the C8 witness. -/
def sW8m : MsState :=
  { query := ['z'], focus := 0, fmatches := [], winStart := 0, winEnd := 1
    maxH := 5, selectedOptions := [] }

/-- Single-select configuration of the C8 witness. -/
def cfgW8 : SelCfg := { newSelCfg with optionsStr := ["abc"] }

/-- Multiselect configuration of the C8 witness. -/
def cfgW8m : MsCfg := newMsCfg ["abc"]

/-- Witness for `c8_empty_filtered_noops`: confirm on an empty match set
leaves both engines' state unchanged and keeps the loop running. -/
theorem c8_empty_filtered_noops_witness :
    selStep fzModel cfgW8 sW8 ken = (sW8, false) ∧
    msStep fzModel cfgW8m sW8m ktab = (sW8m, false) := by
  exact c8_empty_filtered_noops fzModel cfgW8 cfgW8m sW8 sW8m ken ktab rfl
    (Or.inr (Or.inr rfl)) rfl (by decide) (Or.inr (Or.inr (Or.inr rfl)))

/-! ### Claim C9 -/

/-- Single-select configuration with a negative configured height. -/
def cfgNeg : SelCfg := { newSelCfg with optionsStr := ["a", "b", "c"], maxHeight := -1 }

/-- State produced by `selInit` on `cfgNeg`: the negative height is kept. -/
def sNeg0 : SelState :=
  { query := [], focus := 0, fmatches := ["a", "b", "c"], winStart := 0, winEnd := -1
    maxH := -1, result := "a" }

/-- C9 counterexample: the claim says a configured value ≤ 0 at call time
falls back to the library-wide default, but the code only tests
`MaxHeight == 0`: a configured value of −1 is kept (and is used as a slice
bound downstream), not replaced by the default. -/
theorem c9_maxheight_counterexample :
    selInit fzModel cfgNeg = .ok sNeg0 ∧
    cfgNeg.maxHeight ≤ 0 ∧
    sNeg0.maxH = -1 ∧
    sNeg0.maxH ≠ libraryDefaultMaxHeight := by
  exact ⟨rfl, by decide, rfl, by decide⟩

/-- C9 (amended): both constructors default the maximum visible rows to 5,
the library-wide default is 5, and `Show` replaces the configured value
with the library-wide default exactly when the value is 0 at call time
(negative values are used as-is). -/
theorem c9_maxheight_fallback (fz : FuzzyLib) (cfgS : SelCfg) (cfgM : MsCfg)
    (sS : SelState) (sM : MsState)
    (hS : selInit fz cfgS = .ok sS) (hM : msInit fz cfgM = .ok sM) :
    newSelCfg.maxHeight = 5 ∧ (newMsCfg []).maxHeight = 5 ∧
    libraryDefaultMaxHeight = 5 ∧
    sS.maxH = (if cfgS.maxHeight = 0 then libraryDefaultMaxHeight else cfgS.maxHeight) ∧
    sM.maxH = (if cfgM.maxHeight = 0 then libraryDefaultMaxHeight else cfgM.maxHeight) := by
  refine ⟨rfl, rfl, rfl, ?_, ?_⟩
  · unfold selInit at hS
    by_cases hl : cfgS.optionsStr.length = 0
    · rw [if_pos hl] at hS
      exact absurd hS (by simp)
    · rw [if_neg hl] at hS
      rw [Except.ok.injEq] at hS
      subst hS
      simp only [selRender]
      exact (applyDefaultOption_frame cfgS _ _).2.2
  · unfold msInit at hM
    by_cases hl : cfgM.optionsStr.length = 0
    · rw [if_pos hl] at hM
      exact absurd hM (by simp)
    · rw [if_neg hl] at hM
      by_cases hsp :
          cfgM.filter = true ∧ (cfgM.keyConfirm = KeyCode.space ∨ cfgM.keySelect = KeyCode.space)
      · rw [if_pos hsp] at hM
        exact absurd hM (by simp)
      · rw [if_neg hsp] at hM
        rw [Except.ok.injEq] at hM
        subst hM
        rfl

/-- Single-select configuration with a zero configured height. -/
def cfgZeroS : SelCfg := { newSelCfg with optionsStr := ["a"], maxHeight := 0 }

/-- State produced by `selInit` on `cfgZeroS`: height resolved to 5. -/
def sZeroS : SelState :=
  { query := [], focus := 0, fmatches := ["a"], winStart := 0, winEnd := 1
    maxH := 5, result := "a" }

/-- Multiselect configuration with a zero configured height. -/
def cfgZeroM : MsCfg := { newMsCfg ["a"] with maxHeight := 0 }

/-- State produced by `msInit` on `cfgZeroM`: height resolved to 5. -/
def sZeroM : MsState :=
  { query := [], focus := 0, fmatches := ["a"], winStart := 0, winEnd := 1
    maxH := 5, selectedOptions := [] }

/-- Witness for `c9_maxheight_fallback`: a configured 0 resolves to the
library-wide default 5 in both engines. -/
theorem c9_maxheight_fallback_witness :
    sZeroS.maxH = 5 ∧ sZeroM.maxH = 5 ∧ newSelCfg.maxHeight = 5 := by
  have h := c9_maxheight_fallback fzModel cfgZeroS cfgZeroM sZeroS sZeroM rfl rfl
  exact ⟨h.2.2.2.1.trans (by decide), h.2.2.2.2.trans (by decide), h.1⟩

/-! ### Claim C10 -/

/-- C10: in both engines, backspace with an already-empty query is not a
pure no-op: the query stays empty and the filtered list equals the full
candidate store, but the focus index is reset to 0 and the viewport window
to [0, min(MaxHeight, len(candidates))), discarding prior navigation. -/
theorem c10_backspace_empty_query_resets (fz : FuzzyLib) (cfgS : SelCfg) (cfgM : MsCfg)
    (hq : EmptyMatchesAll fz) (sS : SelState) (sM : MsState)
    (hqS : sS.query = []) (hqM : sM.query = [])
    (hkc : cfgM.keyConfirm ≠ KeyCode.backspace) (hksel : cfgM.keySelect ≠ KeyCode.backspace) :
    ((selStep fz cfgS sS kbs).1.query = [] ∧
      (selStep fz cfgS sS kbs).1.fmatches = cfgS.optionsStr ∧
      (selStep fz cfgS sS kbs).1.focus = 0 ∧
      (selStep fz cfgS sS kbs).1.winStart = 0 ∧
      (selStep fz cfgS sS kbs).1.winEnd = min sS.maxH (cfgS.optionsStr.length : Int)) ∧
    ((msStep fz cfgM sM kbs).1.query = [] ∧
      (msStep fz cfgM sM kbs).1.fmatches = cfgM.optionsStr ∧
      (msStep fz cfgM sM kbs).1.focus = 0 ∧
      (msStep fz cfgM sM kbs).1.winStart = 0 ∧
      (msStep fz cfgM sM kbs).1.winEnd = min sM.maxH (cfgM.optionsStr.length : Int)) := by
  constructor
  · refine ⟨?_, ?_, ?_, ?_, ?_⟩ <;>
      simp only [selStep, kbs, selRender, hqS, List.length_nil, gt_iff_lt, Nat.lt_irrefl,
        if_false, computeMatches_nil fz hq] <;>
      first
        | trivial
        | (rw [Int.min_def]; split_ifs <;> omega)
  · refine ⟨?_, ?_, ?_, ?_, ?_⟩ <;>
      simp only [msStep, kbs, if_neg (Ne.symm hkc), if_neg (Ne.symm hksel), msRender, hqM,
        List.length_nil, gt_iff_lt, Nat.lt_irrefl, if_false, computeMatches_nil fz hq] <;>
      first
        | trivial
        | (rw [Int.min_def]; split_ifs <;> omega)

/-- Single-select configuration of the C10 witness: six options. -/
def cfgW10 : SelCfg :=
  { newSelCfg with optionsStr := ["o1", "o2", "o3", "o4", "o5", "o6"] }

/-- Single-select state of the C10 witness: focus 5 with window [1,6) and
an empty query. -/
def sW10 : SelState :=
  { query := [], focus := 5, fmatches := ["o1", "o2", "o3", "o4", "o5", "o6"]
    winStart := 1, winEnd := 6, maxH := 5, result := "o6" }

/-- Multiselect configuration of the C10 witness. -/
def cfgW10m : MsCfg := newMsCfg ["o1", "o2", "o3", "o4", "o5", "o6"]

/-- Multiselect state of the C10 witness. -/
def sW10m : MsState :=
  { query := [], focus := 5, fmatches := ["o1", "o2", "o3", "o4", "o5", "o6"]
    winStart := 1, winEnd := 6, maxH := 5, selectedOptions := [] }

/-- Witness for `c10_backspace_empty_query_resets`: a backspace at focus 5
with window [1,6) and empty query snaps both engines back to focus 0 and
window [0,5). -/
theorem c10_backspace_empty_query_witness :
    (selStep fzModel cfgW10 sW10 kbs).1.focus = 0 ∧
    (selStep fzModel cfgW10 sW10 kbs).1.winStart = 0 ∧
    (selStep fzModel cfgW10 sW10 kbs).1.winEnd = 5 ∧
    (msStep fzModel cfgW10m sW10m kbs).1.focus = 0 ∧
    (msStep fzModel cfgW10m sW10m kbs).1.winEnd = 5 := by
  have h := c10_backspace_empty_query_resets fzModel cfgW10 cfgW10m fzModel_empty sW10 sW10m
    rfl rfl (by decide) (by decide)
  exact ⟨h.1.2.2.1, h.1.2.2.2.1, h.1.2.2.2.2.trans (by decide), h.2.2.2.1,
    h.2.2.2.2.2.trans (by decide)⟩

end Pterm
